import Mathlib

/-!
Shallow embedding of the adaptive-rendering core of the `dotmate` repository
(font resolution, font-size fitting, text wrapping, scenario renderers and the
view dispatcher), together with theorems settling the specification claims.

Conventions of the embedding:
* PIL text measurement (`ImageDraw.textbbox`) is an external collaborator; it is
  modelled by an arbitrary measurement function passed as a parameter.
* Python `float` values are idealised as exact rationals (`ℚ`); `int(x)` is
  truncation toward zero and `x // d` / `x % d` are floor division / modulus,
  expressed below through numerator/denominator arithmetic so that every
  definition evaluates by kernel reduction.
* Fallible Python operations (file loads, HTTP requests) are modelled with
  `Option` / sum types; a raised exception corresponds to the failure
  constructor, so "never raises" becomes "the result is always `some`".
-/

/- ### Text wrapping (`TitleImageView._wrap_text`, src/dotmate/view/title_image.py) -/

/-- Python `str.split()` with no separator on a list of characters: splits on
runs of whitespace and never yields empty words.  `acc` is the current word
being accumulated, in reverse order. -/
def pySplitChars : List Char → List Char → List (List Char)
  | [], acc => if acc.isEmpty then [] else [acc.reverse]
  | c :: rest, acc =>
    if c.isWhitespace then
      if acc.isEmpty then pySplitChars rest []
      else acc.reverse :: pySplitChars rest []
    else pySplitChars rest (c :: acc)

/-- Python `text.split()` (split on whitespace, dropping empty pieces). -/
def pySplit (s : String) : List String :=
  (pySplitChars s.data []).map (fun w => String.mk w)

/-- Python `str.join` of the words with a single-space separator. -/
def sjoin (ws : List String) : String := String.intercalate " " ws

/-- The word loop of `TitleImageView._wrap_text`.  `wfn` measures the rendered
width of a candidate line (`temp_draw.textbbox(...)` for the given font);
`currentLine` is the list of words of the line under construction.  Lines are
kept as word lists; the source joins them with spaces on emission, which
`wrapText` below applies at the end. -/
def wrapLoop (wfn : String → ℕ) (maxWidth : ℕ) : List String → List String → List (List String)
  | [], currentLine => if currentLine.isEmpty then [] else [currentLine]
  | word :: rest, currentLine =>
    if wfn (sjoin (currentLine ++ [word])) ≤ maxWidth then
      wrapLoop wfn maxWidth rest (currentLine ++ [word])
    else if currentLine.isEmpty then
      -- single word is too long, just add it anyway
      [word] :: wrapLoop wfn maxWidth rest []
    else
      currentLine :: wrapLoop wfn maxWidth rest [word]

/-- The lines produced by `TitleImageView._wrap_text`, as word lists. -/
def wrapLines (wfn : String → ℕ) (maxWidth : ℕ) (text : String) : List (List String) :=
  wrapLoop wfn maxWidth (pySplit text) []

/-- `TitleImageView._wrap_text`: wrap `text` to fit within `maxWidth`,
returning the list of line strings. -/
def wrapText (wfn : String → ℕ) (maxWidth : ℕ) (text : String) : List String :=
  (wrapLines wfn maxWidth text).map sjoin

/- ### Font-size fitting (`TitleImageView._calculate_optimal_font_size`) -/

/-- The descending `while font_size >= min_size` loop of
`_calculate_optimal_font_size`.  `wf`/`hf` give the measured text width and
height at a candidate size (including the default-font `size / 11.0` scaling
applied by the source when the fallback bitmap font is in use).  The fuel
argument counts the remaining candidate sizes; it is `fontSize - minSize + 1`
at every call, so fuel `0` corresponds to `font_size < min_size`, where the
source returns `min_size`. -/
def fitFrom (wf hf : ℕ → ℕ) (maxWidth maxHeight minSize : ℕ) : ℕ → ℕ → ℕ
  | 0, _ => minSize
  | fuel + 1, fontSize =>
    if wf fontSize ≤ maxWidth ∧ hf fontSize ≤ maxHeight then fontSize
    else fitFrom wf hf maxWidth maxHeight minSize fuel (fontSize - 1)

/-- `TitleImageView._calculate_optimal_font_size`: largest size in
`[minSize, initialSize]` (scanning downward) whose measured bounding box fits
the constraints, `minSize` if none does. -/
def calculateOptimalFontSize (wf hf : ℕ → ℕ) (maxWidth maxHeight : ℕ)
    (initialSize minSize : ℕ) : ℕ :=
  fitFrom wf hf maxWidth maxHeight minSize (initialSize + 1 - minSize) initialSize

/- ### Font manager (`FontManager`, src/dotmate/font/manager.py) -/

/-- A font object as returned by PIL: either a FreeType font loaded from a
path at a size, or the built-in default bitmap font. -/
inductive PILFont
  | trueType (path : String) (size : ℕ)
  | defaultBitmap
deriving DecidableEq

/-- The filesystem/platform environment the font manager runs in:
`resourceFiles` lists the bundled `font/resource` directory, `truetypeOk`
says whether `ImageFont.truetype(path, size)` succeeds (returns `false` for
missing or unreadable files), and the three lists are the categorized results
of `_find_system_fonts` (the `priority` / `chinese` / `english` buckets). -/
structure FontEnv where
  resourceFiles : List String
  truetypeOk : String → ℕ → Bool
  priorityFonts : List String
  chineseFonts : List String
  englishFonts : List String

/-- `ImageFont.truetype(path, size)`: a FreeType font on success, `none` when
the load raises `OSError`/`IOError`. -/
def tryTruetype (env : FontEnv) (path : String) (size : ℕ) : Option PILFont :=
  if env.truetypeOk path size then some (PILFont.trueType path size) else none

/-- A `for path in paths: try ... except: continue` loop over truetype loads. -/
def firstLoadable (env : FontEnv) (size : ℕ) : List String → Option PILFont
  | [] => none
  | p :: rest =>
    match tryTruetype env p size with
    | some f => some f
    | none => firstLoadable env size rest

/-- The step-5 list of well-known font names tried by bare name. -/
def commonFontNames : List String :=
  ["SourceHanSansSC-Regular.ttf", "NotoSansCJKsc-Regular.ttf", "arial.ttf"]

/-- `FontManager._load_best_font`: the ordered fallback chain.  Resource-file
paths are identified with their file names.  The source guards steps 2-4 with
`if self._system_fonts:`, but that dictionary always has its three keys once
discovery has run (as it has on every call from `get_font`), so the guard is
always true and empty category lists give the same behaviour. -/
def loadBestFont (env : FontEnv) (size : ℕ) : Option PILFont :=
  match (if "SourceHanSansSC-VF.otf" ∈ env.resourceFiles then
           tryTruetype env "SourceHanSansSC-VF.otf" size
         else none) with
  | some f => some f
  | none =>
  match firstLoadable env size env.priorityFonts with
  | some f => some f
  | none =>
  match firstLoadable env size (env.chineseFonts.take 3) with
  | some f => some f
  | none =>
  match firstLoadable env size (env.englishFonts.take 2) with
  | some f => some f
  | none =>
  match firstLoadable env size commonFontNames with
  | some f => some f
  | none => some PILFont.defaultBitmap     -- ImageFont.load_default() always succeeds

/-- `word` starts the list `hay`. -/
def startsWithB : List Char → List Char → Bool
  | [], _ => true
  | _ :: _, [] => false
  | a :: as, b :: bs => a = b && startsWithB as bs

/-- Substring test on character lists (Python `needle in hay`). -/
def containsB (needle : List Char) : List Char → Bool
  | [] => startsWithB needle []
  | c :: rest => startsWithB needle (c :: rest) || containsB needle rest

/-- `hay` ends with `suffixChars` (Python `str.endswith`). -/
def endsWithB (suffixChars hay : List Char) : Bool :=
  startsWithB suffixChars.reverse hay.reverse

/-- `os.path.splitext(file)[0]` on characters: drop the part from the last
dot onward (identity when there is no dot). -/
def splitExtBase (s : List Char) : List Char :=
  match s.reverse.dropWhile (fun c => c ≠ '.') with
  | [] => s
  | _ :: pre => pre.reverse

/-- The extension list tried by `_load_specific_font` for an exact match. -/
def fontExts : List String := [".ttf", ".otf", ".ttc"]

/-- The exact-match loop of `_load_specific_font`: for each extension, if the
file exists in the resource directory, try loading it; a failed load falls
through to the next extension. -/
def tryExactMatch (env : FontEnv) (fontName : String) (size : ℕ) : List String → Option PILFont
  | [] => none
  | ext :: rest =>
    if (fontName ++ ext) ∈ env.resourceFiles then
      match tryTruetype env (fontName ++ ext) size with
      | some f => some f
      | none => tryExactMatch env fontName size rest
    else tryExactMatch env fontName size rest

/-- The partial-match loop of `_load_specific_font`: case-insensitive mutual
substring test of the requested name against each font file stem. -/
def tryPartialMatch (env : FontEnv) (nameLower : List Char) (size : ℕ) : List String → Option PILFont
  | [] => none
  | file :: rest =>
    let fl := file.data.map Char.toLower
    if endsWithB ".ttf".data fl || endsWithB ".otf".data fl || endsWithB ".ttc".data fl then
      if containsB nameLower (splitExtBase fl) || containsB (splitExtBase fl) nameLower then
        match tryTruetype env file size with
        | some f => some f
        | none => tryPartialMatch env nameLower size rest
      else tryPartialMatch env nameLower size rest
    else tryPartialMatch env nameLower size rest

/-- `FontManager._load_specific_font`: exact stem match with known extensions,
then partial match over the resource directory, then `_load_best_font`. -/
def loadSpecificFont (env : FontEnv) (fontName : String) (size : ℕ) : Option PILFont :=
  match tryExactMatch env fontName size fontExts with
  | some f => some f
  | none =>
  match tryPartialMatch env (fontName.data.map Char.toLower) size env.resourceFiles with
  | some f => some f
  | none => loadBestFont env size

/-- The `(size, font_name, font_weight)` cache key of `FontManager.get_font`. -/
abbrev FontCacheKey := ℕ × Option String × Option ℕ

/-- `FontManager.get_font`: cache lookup, then `_load_specific_font` or
`_load_best_font` depending on whether a name was requested, then cache
insertion.  `set_variation_by_axes` mutates the font in place and swallows its
own exceptions, so it does not affect which font object is returned and is not
modelled.  A load failure (`none`) would be a propagated exception; it leaves
the cache unchanged. -/
def getFont (env : FontEnv) (cache : List (FontCacheKey × PILFont)) (size : ℕ)
    (fontName : Option String) (fontWeight : Option ℕ) :
    Option PILFont × List (FontCacheKey × PILFont) :=
  let key : FontCacheKey := (size, fontName, fontWeight)
  match cache.lookup key with
  | some f => (some f, cache)
  | none =>
    match (match fontName with
           | some n => loadSpecificFont env n size
           | none => loadBestFont env size) with
    | some f => (some f, (key, f) :: cache)
    | none => (none, cache)

/- ### Contribution heatmap (`GitHubContributionsView`, src/dotmate/view/github_contributions.py) -/

/-- `GitHubContributionsView._calculate_contribution_level`. -/
def calculateContributionLevel (count : ℕ) : ℕ :=
  if count = 0 then 0
  else if count ≤ 3 then 1
  else if count ≤ 9 then 2
  else 3

/-- The body of a GitHub GraphQL response: an optional `errors` report and the
user payload (abstract). -/
structure GraphQLBody (α : Type) where
  errors : Option String
  user : α

/-- Outcome of `requests.post(...)`: either the request itself raised a
`requests.RequestException` (network failure), or a response with an HTTP
status code and a JSON body arrived. -/
inductive HttpOutcome (β : Type)
  | failure (msg : String)
  | response (status : ℕ) (body : β)

/-- Result of `GitHubContributionsView._fetch_github_data`, classified by the
kind of Python exception: `requestError` for `requests.RequestException`
(network failure or `raise_for_status` on a 4xx/5xx status such as 401 for bad
credentials), `graphqlError` for the plain `Exception` raised when the body
reports GraphQL errors. -/
inductive FetchResult (α : Type)
  | ok (data : α)
  | requestError (msg : String)
  | graphqlError (msg : String)
deriving DecidableEq

/-- `GitHubContributionsView._fetch_github_data`. -/
def fetchGithubData {α : Type} (resp : HttpOutcome (GraphQLBody α)) : FetchResult α :=
  match resp with
  | .failure msg => .requestError msg
  | .response status body =>
    if 400 ≤ status then .requestError ("HTTP " ++ toString status)  -- raise_for_status
    else
      match body.errors with
      | some e => .graphqlError ("GraphQL Error: " ++ e)
      | none => .ok body.user

/-- What `GitHubContributionsView.execute` renders: the contribution grid, the
static error card of `_generate_error_image`, or no render at all (the generic
`except Exception` handler only prints). -/
inductive RenderOutcome (α : Type)
  | contributionGrid (data : α)
  | errorCard
  | noRender
deriving DecidableEq

/-- The exception dispatch of `GitHubContributionsView.execute`:
`requests.RequestException` is answered with the error card, any other
exception (in particular the GraphQL-errors `Exception`) is only printed. -/
def githubExecute {α : Type} (fetch : FetchResult α) : RenderOutcome α :=
  match fetch with
  | .ok d => .contributionGrid d
  | .requestError _ => .errorCard
  | .graphqlError _ => .noRender

/-- `GitHubContributionsView.execute` as a pipeline from the HTTP outcome. -/
def githubViewExecute {α : Type} (resp : HttpOutcome (GraphQLBody α)) : RenderOutcome α :=
  githubExecute (fetchGithubData resp)

/- ### Percent change (`UmamiStatsView._calculate_change_percentage`) -/

/-- Python `abs` on an (exact) float. -/
def pyAbs (q : ℚ) : ℚ := if q.num < 0 then -q else q

/-- Python `format(x, ".0f")` rounding: to the nearest integer, ties to even,
on the exact rational value.  Expressed through numerator/denominator
arithmetic (`q.num / q.den` is `⌊q⌋` since `/` on `ℤ` is Euclidean division
and `q.den > 0`). -/
def roundHalfEven (q : ℚ) : ℤ :=
  if 2 * (q.num - q.num / q.den * q.den) < (q.den : ℤ) then q.num / q.den
  else if (q.den : ℤ) < 2 * (q.num - q.num / q.den * q.den) then q.num / q.den + 1
  else if q.num / q.den % 2 = 0 then q.num / q.den else q.num / q.den + 1

/-- `UmamiStatsView._calculate_change_percentage`: percent change of a metric
as `(percentage string, triangle symbol)`.  The source computes
`change = ((current - previous) / previous) * 100` as a float and formats it
with `f"{...:.0f}%"`; here `change` is the exact rational
`(current - previous) * 100 / previous`, bound by `changePct`. -/
def changePct (current previous : ℕ) : ℚ :=
  mkRat (((current : ℤ) - (previous : ℤ)) * 100) previous

/-- The branch structure of `_calculate_change_percentage`. -/
def calculateChangePercentage (current previous : ℕ) : String × String :=
  if previous = 0 then
    if 0 < current then ("100%", "▲") else ("0%", "")
  else if 0 < changePct current previous then
    (toString (roundHalfEven (changePct current previous)) ++ "%", "▲")
  else if changePct current previous < 0 then
    (toString (roundHalfEven (pyAbs (changePct current previous))) ++ "%", "▼")
  else ("0%", "")

/- ### Duration formatting (`CodeStatusView._format_time_duration`) -/

/-- Python `int(x)` on an (exact) float: truncation toward zero.  `/` on `ℤ`
is Euclidean division, which agrees with floor division on the non-negative
numerators used here. -/
def pyInt (q : ℚ) : ℤ :=
  if q.num < 0 then -((-q.num) / (q.den : ℤ)) else q.num / (q.den : ℤ)

/-- Python `int(x // d)` for a positive integer `d`: the floor of `x / d`. -/
def pyFloorDivNat (q : ℚ) (d : ℕ) : ℤ := q.num / ((q.den : ℤ) * d)

/-- Python `x % d` for a positive integer `d`: `x - d * (x // d)`. -/
def pyModNat (q : ℚ) (d : ℕ) : ℚ :=
  mkRat (q.num - (d : ℤ) * pyFloorDivNat q d * (q.den : ℤ)) q.den

/-- `CodeStatusView._format_time_duration`: human-readable duration from a
number of seconds. -/
def formatTimeDuration (totalSeconds : ℚ) : String :=
  if totalSeconds < 60 then toString (pyInt totalSeconds) ++ "s"
  else if totalSeconds < 3600 then
    toString (pyFloorDivNat totalSeconds 60) ++ "m"
  else -- hours = int(q // 3600), minutes = int((q % 3600) // 60)
    if 0 < pyFloorDivNat (pyModNat totalSeconds 3600) 60 then
      toString (pyFloorDivNat totalSeconds 3600) ++ "h " ++
        toString (pyFloorDivNat (pyModNat totalSeconds 3600) 60) ++ "m"
    else toString (pyFloorDivNat totalSeconds 3600) ++ "h"

/- ### View factory (`ViewFactory`, src/dotmate/view/factory.py) -/

/-- The renderer variants of the `_view_registry`. -/
inductive ViewKind
  | work
  | text
  | codeStatus
  | image
  | titleImage
  | umamiStats
  | githubContributions
deriving DecidableEq

/-- `ViewFactory._view_registry`: scenario name to renderer variant. -/
def viewRegistry : List (String × ViewKind) :=
  [("work", ViewKind.work),
   ("text", ViewKind.text),
   ("code_status", ViewKind.codeStatus),
   ("image", ViewKind.image),
   ("title_image", ViewKind.titleImage),
   ("umami_stats", ViewKind.umamiStats),
   ("github_contributions", ViewKind.githubContributions)]

/-- `ViewFactory.create_view`: registry lookup; an unknown name raises
`ValueError(f"Unknown view type: {view_type}")`, modelled as `Except.error`. -/
def createView (viewType : String) : Except String ViewKind :=
  match viewRegistry.lookup viewType with
  | some v => Except.ok v
  | none => Except.error ("Unknown view type: " ++ viewType)

/-- `ViewFactory.execute_view`: create the view, then run it.  `runView`
abstracts parameter coercion plus `view.execute`; it is reached only when
`createView` succeeded. -/
def executeView {α : Type} (runView : ViewKind → α) (viewType : String) : Except String α :=
  match createView viewType with
  | Except.ok v => Except.ok (runView v)
  | Except.error e => Except.error e

/- ### Helper lemmas -/

theorem wrapLoop_sound (wfn : String → ℕ) (maxWidth : ℕ) :
    ∀ (ws currentLine : List String),
      (currentLine = [] ∨ wfn (sjoin currentLine) ≤ maxWidth ∨ currentLine.length = 1) →
      ∀ line ∈ wrapLoop wfn maxWidth ws currentLine,
        wfn (sjoin line) ≤ maxWidth ∨ line.length = 1 := by
  intro ws
  induction ws with
  | nil =>
    intro cur hcur line hline
    simp only [wrapLoop] at hline
    by_cases h : cur.isEmpty
    · simp [h] at hline
    · simp [h] at hline
      subst hline
      rcases hcur with h0 | h1 | h2
      · subst h0; simp at h
      · exact Or.inl h1
      · exact Or.inr h2
  | cons word rest ih =>
    intro cur hcur line hline
    simp only [wrapLoop] at hline
    by_cases hfit : wfn (sjoin (cur ++ [word])) ≤ maxWidth
    · rw [if_pos hfit] at hline
      exact ih (cur ++ [word]) (Or.inr (Or.inl hfit)) line hline
    · rw [if_neg hfit] at hline
      by_cases hemp : cur.isEmpty
      · rw [if_pos hemp] at hline
        rcases List.mem_cons.mp hline with h | h
        · subst h; exact Or.inr rfl
        · exact ih [] (Or.inl rfl) line h
      · rw [if_neg hemp] at hline
        rcases List.mem_cons.mp hline with h | h
        · subst h
          rcases hcur with h0 | h1 | h2
          · subst h0; simp at hemp
          · exact Or.inl h1
          · exact Or.inr h2
        · exact ih [word] (Or.inr (Or.inr rfl)) line h

theorem wrapLoop_join (wfn : String → ℕ) (maxWidth : ℕ) :
    ∀ (ws currentLine : List String),
      (wrapLoop wfn maxWidth ws currentLine).flatten = currentLine ++ ws := by
  intro ws
  induction ws with
  | nil =>
    intro cur
    simp only [wrapLoop]
    by_cases h : cur.isEmpty
    · simp [List.isEmpty_iff.mp h]
    · simp [h]
  | cons word rest ih =>
    intro cur
    simp only [wrapLoop]
    by_cases hfit : wfn (sjoin (cur ++ [word])) ≤ maxWidth
    · rw [if_pos hfit, ih]
      simp
    · rw [if_neg hfit]
      by_cases hemp : cur.isEmpty
      · rw [if_pos hemp]
        simp [List.isEmpty_iff.mp hemp, ih]
      · rw [if_neg hemp]
        simp [ih]

theorem pySplitChars_all_ws :
    ∀ l : List Char, (∀ c ∈ l, c.isWhitespace = true) → pySplitChars l [] = [] := by
  intro l
  induction l with
  | nil => intro _; simp [pySplitChars]
  | cons c rest ih =>
    intro h
    simp only [pySplitChars]
    rw [if_pos (h c (List.mem_cons_self c rest))]
    simp only [List.isEmpty_nil, if_pos]
    exact ih fun x hx => h x (List.mem_cons_of_mem c hx)

/-- Claim C3: every line produced by `_wrap_text` has measured width at most
`max_width`, except that a line consisting of a single word (in particular an
over-long word emitted alone, never split) may be wider. -/
theorem wrap_line_width_bound (wfn : String → ℕ) (maxWidth : ℕ) (text : String) :
    ∀ line ∈ wrapLines wfn maxWidth text,
      wfn (sjoin line) ≤ maxWidth ∨ line.length = 1 :=
  wrapLoop_sound wfn maxWidth (pySplit text) [] (Or.inl rfl)

/-- Witness for `wrap_line_width_bound` at a concrete wrap. -/
theorem wrap_line_width_bound_witness :
    ["cccccc"] ∈ wrapLines String.length 5 "aa bb cccccc" ∧
      (String.length (sjoin ["cccccc"]) ≤ 5 ∨ (["cccccc"] : List String).length = 1) :=
  ⟨by decide, wrap_line_width_bound String.length 5 "aa bb cccccc" ["cccccc"] (by decide)⟩

/-- Claim C4: the concatenation, in output order, of the words of the lines returned
by `_wrap_text` is exactly the word sequence of the input text; the line
strings of `_wrap_text` are these word lists joined with single spaces. -/
theorem wrap_preserves_words (wfn : String → ℕ) (maxWidth : ℕ) (text : String) :
    (wrapLines wfn maxWidth text).flatten = pySplit text ∧
      wrapText wfn maxWidth text = (wrapLines wfn maxWidth text).map sjoin :=
  ⟨by simpa using wrapLoop_join wfn maxWidth (pySplit text) [], rfl⟩

/-- Claim C10: wrapping a text with no words (empty or whitespace-only) yields no
lines at all. -/
theorem wrap_empty_text (wfn : String → ℕ) (maxWidth : ℕ) (text : String)
    (h : ∀ c ∈ text.data, c.isWhitespace = true) :
    wrapText wfn maxWidth text = [] := by
  unfold wrapText wrapLines pySplit
  rw [pySplitChars_all_ws text.data h]
  simp [wrapLoop]

/-- Witness for `wrap_empty_text` on a whitespace-only text. -/
theorem wrap_empty_text_witness :
    (∀ c ∈ ("  ".data), c.isWhitespace = true) ∧ wrapText String.length 100 "  " = [] :=
  ⟨by decide, wrap_empty_text String.length 100 "  " (by decide)⟩

theorem fitFrom_zero (wf hf : ℕ → ℕ) (maxW maxH minS fs : ℕ) :
    fitFrom wf hf maxW maxH minS 0 fs = minS := rfl

theorem fitFrom_succ (wf hf : ℕ → ℕ) (maxW maxH minS fuel fs : ℕ) :
    fitFrom wf hf maxW maxH minS (fuel + 1) fs =
      if wf fs ≤ maxW ∧ hf fs ≤ maxH then fs
      else fitFrom wf hf maxW maxH minS fuel (fs - 1) := rfl

theorem fitFrom_bounds (wf hf : ℕ → ℕ) (maxW maxH minS : ℕ) :
    ∀ k, minS ≤ fitFrom wf hf maxW maxH minS (k + 1) (minS + k) ∧
      fitFrom wf hf maxW maxH minS (k + 1) (minS + k) ≤ minS + k := by
  intro k
  induction k with
  | zero =>
    rw [fitFrom_succ]
    split
    · omega
    · rw [show minS + 0 - 1 = minS - 1 by omega, fitFrom_zero]
      omega
  | succ k ih =>
    rw [fitFrom_succ]
    split
    · omega
    · rw [show minS + (k + 1) - 1 = minS + k by omega]
      exact ⟨ih.1, le_trans ih.2 (by omega)⟩

theorem fitFrom_mono (wf hf : ℕ → ℕ) (minS : ℕ) {maxW maxH maxW2 maxH2 : ℕ}
    (hW : maxW ≤ maxW2) (hH : maxH ≤ maxH2) :
    ∀ k, fitFrom wf hf maxW maxH minS (k + 1) (minS + k) ≤
      fitFrom wf hf maxW2 maxH2 minS (k + 1) (minS + k) := by
  intro k
  induction k with
  | zero =>
    simp only [fitFrom_succ, fitFrom_zero]
    split
    · split
      · omega
      · omega
    · split
      · omega
      · omega
  | succ k ih =>
    rw [fitFrom_succ wf hf maxW maxH minS (k + 1) (minS + (k + 1)),
      fitFrom_succ wf hf maxW2 maxH2 minS (k + 1) (minS + (k + 1)),
      show minS + (k + 1) - 1 = minS + k by omega]
    by_cases hs : wf (minS + (k + 1)) ≤ maxW ∧ hf (minS + (k + 1)) ≤ maxH
    · rw [if_pos hs, if_pos ⟨le_trans hs.1 hW, le_trans hs.2 hH⟩]
    · rw [if_neg hs]
      by_cases hb : wf (minS + (k + 1)) ≤ maxW2 ∧ hf (minS + (k + 1)) ≤ maxH2
      · rw [if_pos hb]
        exact le_trans (fitFrom_bounds wf hf maxW maxH minS k).2 (by omega)
      · rw [if_neg hb]
        exact ih

/-- Claim C2: `_calculate_optimal_font_size` returns a size in
`[min_size, initial_size]` whenever `min_size ≤ initial_size`, and enlarging
the bounding box (`max_width` and/or `max_height`) never decreases the
returned size. -/
theorem fitSize_bounds_and_monotone (wf hf : ℕ → ℕ)
    (maxW maxH maxW2 maxH2 initialSize minSize : ℕ)
    (hmin : minSize ≤ initialSize) (hW : maxW ≤ maxW2) (hH : maxH ≤ maxH2) :
    (minSize ≤ calculateOptimalFontSize wf hf maxW maxH initialSize minSize ∧
      calculateOptimalFontSize wf hf maxW maxH initialSize minSize ≤ initialSize) ∧
      calculateOptimalFontSize wf hf maxW maxH initialSize minSize ≤
        calculateOptimalFontSize wf hf maxW2 maxH2 initialSize minSize := by
  obtain ⟨k, rfl⟩ : ∃ k, initialSize = minSize + k := ⟨initialSize - minSize, by omega⟩
  unfold calculateOptimalFontSize
  have h1 : minSize + k + 1 - minSize = k + 1 := by omega
  rw [h1]
  exact ⟨fitFrom_bounds wf hf maxW maxH minSize k, fitFrom_mono wf hf minSize hW hH k⟩

/-- Witness for `fitSize_bounds_and_monotone` at concrete measurements. -/
theorem fitSize_bounds_and_monotone_witness :
    (16 ≤ 48 ∧ 30 ≤ 40 ∧ 10 ≤ 10) ∧
      ((16 ≤ calculateOptimalFontSize id (fun _ => 0) 30 10 48 16 ∧
        calculateOptimalFontSize id (fun _ => 0) 30 10 48 16 ≤ 48) ∧
        calculateOptimalFontSize id (fun _ => 0) 30 10 48 16 ≤
          calculateOptimalFontSize id (fun _ => 0) 40 10 48 16) :=
  ⟨⟨by decide, by decide, by decide⟩,
    fitSize_bounds_and_monotone id (fun _ => 0) 30 10 40 10 48 16
      (by decide) (by decide) (by decide)⟩

/-- Claim C5: the contribution-level mapping sends 0 to level 0, 1-3 to level 1,
4-9 to level 2 and everything from 10 up to level 3, with the six sample
counts mapping as the specification states. -/
theorem contributionLevel_thresholds (count : ℕ) :
    (count = 0 → calculateContributionLevel count = 0) ∧
    (1 ≤ count → count ≤ 3 → calculateContributionLevel count = 1) ∧
    (4 ≤ count → count ≤ 9 → calculateContributionLevel count = 2) ∧
    (10 ≤ count → calculateContributionLevel count = 3) ∧
    calculateContributionLevel 0 = 0 ∧ calculateContributionLevel 3 = 1 ∧
    calculateContributionLevel 4 = 2 ∧ calculateContributionLevel 9 = 2 ∧
    calculateContributionLevel 10 = 3 ∧ calculateContributionLevel 1000 = 3 := by
  refine ⟨?_, ?_, ?_, ?_, by decide, by decide, by decide, by decide, by decide, by decide⟩
  · intro h1
    unfold calculateContributionLevel
    split_ifs <;> omega
  · intro h1 h2
    unfold calculateContributionLevel
    split_ifs <;> omega
  · intro h1 h2
    unfold calculateContributionLevel
    split_ifs <;> omega
  · intro h1
    unfold calculateContributionLevel
    split_ifs <;> omega

/-- Witness for `contributionLevel_thresholds` at count 7. -/
theorem contributionLevel_thresholds_witness :
    4 ≤ 7 ∧ 7 ≤ 9 ∧ calculateContributionLevel 7 = 2 :=
  ⟨by decide, by decide, (contributionLevel_thresholds 7).2.2.1 (by decide) (by decide)⟩

/-- Claim C9: dispatching an unregistered scenario name fails with an error message
naming that scenario, before any renderer runs; a registered name is executed
with its registered renderer variant. -/
theorem executeView_dispatch {α : Type} (runView : ViewKind → α) (viewType : String) :
    (viewType ∉ viewRegistry.map Prod.fst →
      executeView runView viewType = Except.error ("Unknown view type: " ++ viewType)) ∧
    (∀ v, viewRegistry.lookup viewType = some v →
      executeView runView viewType = Except.ok (runView v)) := by
  constructor
  · intro h
    have h1 : (viewType == "work") = false := beq_eq_false_iff_ne.mpr fun hh => h (by rw [hh]; decide)
    have h2 : (viewType == "text") = false := beq_eq_false_iff_ne.mpr fun hh => h (by rw [hh]; decide)
    have h3 : (viewType == "code_status") = false := beq_eq_false_iff_ne.mpr fun hh => h (by rw [hh]; decide)
    have h4 : (viewType == "image") = false := beq_eq_false_iff_ne.mpr fun hh => h (by rw [hh]; decide)
    have h5 : (viewType == "title_image") = false := beq_eq_false_iff_ne.mpr fun hh => h (by rw [hh]; decide)
    have h6 : (viewType == "umami_stats") = false := beq_eq_false_iff_ne.mpr fun hh => h (by rw [hh]; decide)
    have h7 : (viewType == "github_contributions") = false := beq_eq_false_iff_ne.mpr fun hh => h (by rw [hh]; decide)
    unfold executeView createView viewRegistry
    simp [List.lookup, h1, h2, h3, h4, h5, h6, h7]
  · intro v hv
    unfold executeView createView
    rw [hv]

/-- Witness for `executeView_dispatch`: an unknown and a known scenario. -/
theorem executeView_dispatch_witness :
    ("nope" ∉ viewRegistry.map Prod.fst ∧
      executeView (fun _ => (0 : ℕ)) "nope" = Except.error ("Unknown view type: " ++ "nope")) ∧
    (viewRegistry.lookup "work" = some ViewKind.work ∧
      executeView (fun _ => (0 : ℕ)) "work" = Except.ok 0) :=
  ⟨⟨by decide, (executeView_dispatch (fun _ => (0 : ℕ)) "nope").1 (by decide)⟩,
   ⟨by decide, (executeView_dispatch (fun _ => (0 : ℕ)) "work").2 ViewKind.work (by decide)⟩⟩

theorem firstLoadable_none (env : FontEnv) (size : ℕ)
    (h : ∀ p s, env.truetypeOk p s = false) :
    ∀ paths, firstLoadable env size paths = none := by
  intro paths
  induction paths with
  | nil => rfl
  | cons p rest ih =>
    simp only [firstLoadable, tryTruetype, h p size]
    simpa using ih

theorem loadBestFont_isSome (env : FontEnv) (size : ℕ) :
    (loadBestFont env size).isSome = true := by
  unfold loadBestFont
  repeat' split
  all_goals rfl

/-- Claim C1: a font query with no requested name always resolves: `get_font`
returns a font for every cache state, size and optional weight (no
file-not-found error escapes), and when no truetype font on the system is
loadable at all the fallback chain ends in the built-in default bitmap font. -/
theorem getFont_none_always_resolves (env : FontEnv)
    (cache : List (FontCacheKey × PILFont)) (size : ℕ) (fontWeight : Option ℕ)
    (hsize : 0 < size) :
    ((getFont env cache size none fontWeight).1.isSome = true) ∧
    ((∀ p s, env.truetypeOk p s = false) →
      loadBestFont env size = some PILFont.defaultBitmap) := by
  constructor
  · cases hc : cache.lookup (size, none, fontWeight) with
    | some f => simp [getFont, hc]
    | none =>
      cases hb : loadBestFont env size with
      | some f => simp [getFont, hc, hb]
      | none =>
        have := loadBestFont_isSome env size
        rw [hb] at this
        simp at this
  · intro h
    unfold loadBestFont
    simp [tryTruetype, h, firstLoadable_none env size h]

/-- Witness for `getFont_none_always_resolves` in a fontless environment. -/
theorem getFont_none_always_resolves_witness :
    0 < 12 ∧
    ((getFont ⟨[], fun _ _ => false, [], [], []⟩ [] 12 none none).1.isSome = true) ∧
    loadBestFont ⟨[], fun _ _ => false, [], [], []⟩ 12 = some PILFont.defaultBitmap :=
  ⟨by decide,
    (getFont_none_always_resolves ⟨[], fun _ _ => false, [], [], []⟩ [] 12 none (by decide)).1,
    (getFont_none_always_resolves ⟨[], fun _ _ => false, [], [], []⟩ [] 12 none (by decide)).2
      (fun _ _ => rfl)⟩

/-- Claim C7 counterexample: a malformed API response (HTTP success whose body
reports GraphQL errors) does not produce the error card; the renderer
produces no render at all, so the claim fails at this input. -/
theorem github_malformed_response_no_errorCard :
    githubViewExecute (HttpOutcome.response 200 (⟨some "type error", ()⟩ : GraphQLBody Unit)) =
      RenderOutcome.noRender ∧
    (RenderOutcome.noRender : RenderOutcome Unit) ≠ RenderOutcome.errorCard :=
  ⟨rfl, by decide⟩

/-- Claim C7 amended: a network failure or an HTTP error status (bad credentials
included) is caught and answered with the static error card; a malformed API
response (GraphQL errors with HTTP success) is also caught and never
propagates, but yields no render instead of the error card; a well-formed
response renders the contribution grid. -/
theorem githubExecute_error_handling {α : Type} (resp : HttpOutcome (GraphQLBody α)) :
    (∀ msg, resp = HttpOutcome.failure msg →
      githubViewExecute resp = RenderOutcome.errorCard) ∧
    (∀ status body, resp = HttpOutcome.response status body → 400 ≤ status →
      githubViewExecute resp = RenderOutcome.errorCard) ∧
    (∀ status body e, resp = HttpOutcome.response status body → status < 400 →
      body.errors = some e → githubViewExecute resp = RenderOutcome.noRender) ∧
    (∀ status body, resp = HttpOutcome.response status body → status < 400 →
      body.errors = none →
      githubViewExecute resp = RenderOutcome.contributionGrid body.user) := by
  refine ⟨?_, ?_, ?_, ?_⟩
  · intro msg hmsg
    subst hmsg
    rfl
  · intro status body hresp hstatus
    subst hresp
    simp [githubViewExecute, fetchGithubData, githubExecute, hstatus]
  · intro status body e hresp hstatus herr
    subst hresp
    have hns : ¬400 ≤ status := by omega
    simp [githubViewExecute, fetchGithubData, githubExecute, hns, herr]
  · intro status body hresp hstatus herr
    subst hresp
    have hns : ¬400 ≤ status := by omega
    simp [githubViewExecute, fetchGithubData, githubExecute, hns, herr]

/-- Witness for `githubExecute_error_handling` at concrete fetch outcomes. -/
theorem githubExecute_error_handling_witness :
    githubViewExecute (HttpOutcome.failure "connection refused" : HttpOutcome (GraphQLBody Unit)) =
        RenderOutcome.errorCard ∧
      githubViewExecute (HttpOutcome.response 401 (⟨none, ()⟩ : GraphQLBody Unit)) =
        RenderOutcome.errorCard ∧
      githubViewExecute (HttpOutcome.response 200 (⟨none, ()⟩ : GraphQLBody Unit)) =
        RenderOutcome.contributionGrid () :=
  ⟨(githubExecute_error_handling _).1 "connection refused" rfl,
   (githubExecute_error_handling _).2.1 401 _ rfl (by decide),
   (githubExecute_error_handling _).2.2.2 200 _ rfl (by decide) rfl⟩

theorem pyInt_eq_floor (q : ℚ) (hq : 0 ≤ q) : pyInt q = ⌊q⌋ := by
  unfold pyInt
  rw [if_neg (not_lt.mpr (Rat.num_nonneg.mpr hq)), Rat.floor_def]

theorem pyFloorDivNat_eq_floor (q : ℚ) (d : ℕ) : pyFloorDivNat q d = ⌊q / (d : ℚ)⌋ := by
  have h1 : q / (d : ℚ) = (q.num : ℚ) / (((q.den * d : ℕ)) : ℚ) := by
    conv_lhs => rw [← Rat.num_div_den q]
    rw [div_div]
    norm_cast
  rw [h1, Rat.floor_intCast_div_natCast]
  simp [pyFloorDivNat, Nat.cast_mul]

theorem rat_num_eq_mul_den (q : ℚ) : (q.num : ℚ) = q * (q.den : ℚ) :=
  (div_eq_iff (by positivity)).mp (Rat.num_div_den q)

theorem pyModNat_eq (q : ℚ) (d : ℕ) :
    pyModNat q d = q - (d : ℚ) * (⌊q / (d : ℚ)⌋ : ℚ) := by
  have hden : ((q.den : ℚ)) ≠ 0 := by positivity
  unfold pyModNat
  rw [Rat.mkRat_eq_div, pyFloorDivNat_eq_floor]
  push_cast
  rw [rat_num_eq_mul_den q, div_eq_iff hden]
  ring

theorem minutes_eq (q : ℚ) :
    pyFloorDivNat (pyModNat q 3600) 60 = ⌊q / 60⌋ - 60 * ⌊q / 3600⌋ := by
  rw [pyFloorDivNat_eq_floor, pyModNat_eq]
  push_cast
  have h1 : (q - 3600 * (⌊q / 3600⌋ : ℚ)) / 60 = q / 60 - ((60 * ⌊q / 3600⌋ : ℤ) : ℚ) := by
    push_cast
    ring
  rw [h1, Int.floor_sub_int]

/-- Claim C8 counterexample: at exactly one hour the formatter produces `"1h"`,
not an hours-and-minutes rendering `"1h 0m"`, so the claimed `"Nh Nm"` shape
fails for durations of one hour or more. -/
theorem formatTimeDuration_one_hour :
    formatTimeDuration 3600 = "1h" ∧ ("1h" : String) ≠ "1h 0m" :=
  ⟨by decide, by decide⟩

/-- Claim C8 amended: for a non-negative duration, under 60 seconds the formatter
yields whole seconds `"Ns"`, under one hour whole minutes `"Nm"`, and from one
hour on whole hours with the remaining whole minutes `"Nh Nm"` — except that a
zero minute remainder yields just `"Nh"`. -/
theorem formatTimeDuration_spec (q : ℚ) (hq : 0 ≤ q) :
    (q < 60 → formatTimeDuration q = toString ⌊q⌋ ++ "s") ∧
    (60 ≤ q → q < 3600 → formatTimeDuration q = toString ⌊q / 60⌋ ++ "m") ∧
    (3600 ≤ q → 0 < ⌊q / 60⌋ - 60 * ⌊q / 3600⌋ →
      formatTimeDuration q =
        toString ⌊q / 3600⌋ ++ "h " ++ toString (⌊q / 60⌋ - 60 * ⌊q / 3600⌋) ++ "m") ∧
    (3600 ≤ q → ⌊q / 60⌋ - 60 * ⌊q / 3600⌋ = 0 →
      formatTimeDuration q = toString ⌊q / 3600⌋ ++ "h") := by
  refine ⟨?_, ?_, ?_, ?_⟩
  · intro h
    unfold formatTimeDuration
    rw [if_pos h, pyInt_eq_floor q hq]
  · intro h1 h2
    unfold formatTimeDuration
    rw [if_neg (not_lt.mpr h1), if_pos h2, pyFloorDivNat_eq_floor]
    norm_num
  · intro h1 hm
    unfold formatTimeDuration
    rw [if_neg (not_lt.mpr (le_trans (by norm_num) h1)),
      if_neg (not_lt.mpr h1), minutes_eq, if_pos hm, pyFloorDivNat_eq_floor]
    norm_num
  · intro h1 hm
    unfold formatTimeDuration
    rw [if_neg (not_lt.mpr (le_trans (by norm_num) h1)),
      if_neg (not_lt.mpr h1), minutes_eq, if_neg (by omega), pyFloorDivNat_eq_floor]
    norm_num

/-- Witness for `formatTimeDuration_spec` at 3725 seconds (1h 2m). -/
theorem formatTimeDuration_spec_witness :
    ((0 : ℚ) ≤ 3725 ∧ (3600 : ℚ) ≤ 3725 ∧
      0 < ⌊(3725 : ℚ) / 60⌋ - 60 * ⌊(3725 : ℚ) / 3600⌋) ∧
      formatTimeDuration 3725 = toString ⌊(3725 : ℚ) / 3600⌋ ++ "h " ++
        toString (⌊(3725 : ℚ) / 60⌋ - 60 * ⌊(3725 : ℚ) / 3600⌋) ++ "m" := by
  have hf1 : ⌊(3725 : ℚ) / 60⌋ = 62 := by norm_num [Int.floor_eq_iff]
  have hf2 : ⌊(3725 : ℚ) / 3600⌋ = 1 := by norm_num [Int.floor_eq_iff]
  refine ⟨⟨by norm_num, by norm_num, by rw [hf1, hf2]; norm_num⟩, ?_⟩
  exact (formatTimeDuration_spec 3725 (by norm_num)).2.2.1 (by norm_num)
    (by rw [hf1, hf2]; norm_num)

theorem change_eq (current previous : ℕ) :
    changePct current previous =
      ((current : ℚ) - (previous : ℚ)) * 100 / (previous : ℚ) := by
  unfold changePct
  rw [Rat.mkRat_eq_div]
  push_cast
  ring

theorem rat_num_neg (q : ℚ) : q.num < 0 ↔ q < 0 := by
  rw [← not_le, ← not_le, Rat.num_nonneg]

/-- Claim C6: the percent-change computation yields `"100%"` with an up arrow when
the previous value is 0 and the current one positive, `"0%"` with no arrow
when both are 0 or when they are equal, and otherwise the unsigned
rounded-to-even percent `|current - previous| / previous * 100` with the arrow
given by the direction of change; the three sample pairs evaluate as the
specification states. -/
theorem changePercentage_spec (current previous : ℕ) :
    (previous = 0 → 0 < current → calculateChangePercentage current previous = ("100%", "▲")) ∧
    (previous = 0 → current = 0 → calculateChangePercentage current previous = ("0%", "")) ∧
    (0 < previous → previous < current →
      calculateChangePercentage current previous =
        (toString (roundHalfEven (|(current : ℚ) - (previous : ℚ)| / (previous : ℚ) * 100)) ++ "%",
          "▲")) ∧
    (0 < previous → current < previous →
      calculateChangePercentage current previous =
        (toString (roundHalfEven (|(current : ℚ) - (previous : ℚ)| / (previous : ℚ) * 100)) ++ "%",
          "▼")) ∧
    (0 < previous → current = previous → calculateChangePercentage current previous = ("0%", "")) ∧
    calculateChangePercentage 50 0 = ("100%", "▲") ∧
    calculateChangePercentage 0 0 = ("0%", "") ∧
    calculateChangePercentage 80 100 = ("20%", "▼") := by
  refine ⟨?_, ?_, ?_, ?_, ?_, by decide, by decide, by decide⟩
  · intro h1 h2
    unfold calculateChangePercentage
    rw [if_pos h1, if_pos h2]
  · intro h1 h2
    unfold calculateChangePercentage
    rw [if_pos h1, if_neg (by omega)]
  · intro h1 h2
    have hp0 : previous ≠ 0 := by omega
    have hplt : (previous : ℚ) < (current : ℚ) := by exact_mod_cast h2
    have hppos : (0 : ℚ) < (previous : ℚ) := by exact_mod_cast h1
    have hchange : changePct current previous =
        |(current : ℚ) - (previous : ℚ)| / (previous : ℚ) * 100 := by
      rw [change_eq, abs_of_pos (by linarith)]
      ring
    have hpos : 0 < changePct current previous := by
      rw [hchange]
      have habs : (0 : ℚ) < |(current : ℚ) - (previous : ℚ)| :=
        abs_pos.mpr (sub_ne_zero_of_ne (by linarith))
      positivity
    unfold calculateChangePercentage
    rw [if_neg hp0, if_pos hpos, hchange]
  · intro h1 h2
    have hp0 : previous ≠ 0 := by omega
    have hplt : (current : ℚ) < (previous : ℚ) := by exact_mod_cast h2
    have hppos : (0 : ℚ) < (previous : ℚ) := by exact_mod_cast h1
    have hneg : changePct current previous < 0 := by
      rw [change_eq]
      apply div_neg_of_neg_of_pos _ hppos
      have : (current : ℚ) - (previous : ℚ) < 0 := by linarith
      nlinarith
    have habsval : pyAbs (changePct current previous) =
        |(current : ℚ) - (previous : ℚ)| / (previous : ℚ) * 100 := by
      unfold pyAbs
      rw [if_pos ((rat_num_neg _).mpr hneg), change_eq,
        abs_of_neg (show (current : ℚ) - (previous : ℚ) < 0 by linarith)]
      ring
    unfold calculateChangePercentage
    rw [if_neg hp0, if_neg (not_lt.mpr (le_of_lt hneg)), if_pos hneg, habsval]
  · intro h1 h2
    subst h2
    have hp0 : current ≠ 0 := by omega
    have h0 : changePct current current = 0 := by
      rw [change_eq]
      simp
    unfold calculateChangePercentage
    rw [if_neg hp0, h0]
    norm_num

/-- Witness for `changePercentage_spec` at the pair (80, 100). -/
theorem changePercentage_spec_witness :
    (0 < 100 ∧ 80 < 100) ∧
      calculateChangePercentage 80 100 =
        (toString (roundHalfEven (|(80 : ℚ) - (100 : ℚ)| / (100 : ℚ) * 100)) ++ "%", "▼") :=
  ⟨⟨by decide, by decide⟩, (changePercentage_spec 80 100).2.2.2.1 (by decide) (by decide)⟩
